import Mathlib

/-!
Verification development for the `tickets-londontheatre-bot` scraper
(`bot.py`).  The script scrapes a theatre ticketing site: it iterates a
date range, fetches one availability page per date, parses a seats table
out of the markup, and exports the collected records as quoted CSV.

Markup is modelled as a tree of element/text nodes (the output of an HTML
parse); the BeautifulSoup operations used by the script (`find`,
`find_all`, attribute access such as `.tbody`, `.text`, item access
`tag['value']`, `find(text=True, recursive=False)`) are translated below.
Python exceptions (`IndexError`, `AttributeError`, `KeyError`) become an
explicit error type carried by `Except`.
-/

namespace TLTBot

/-- An HTML node: an element with a tag name, attributes and children, or
a bare text node (BeautifulSoup `NavigableString`). -/
inductive Node where
  | element (tag : String) (attrs : List (String × String)) (children : List Node)
  | text (s : String)
deriving Repr

/-- A parsed document: the top-level nodes of the markup. -/
abbrev Doc := List Node

mutual
/-- All nodes of a subtree in document (pre)order, the root first.
This is the order in which BeautifulSoup's `find`/`find_all` visit nodes. -/
def preorder : Node → List Node
  | .text s => [.text s]
  | .element t a cs => .element t a cs :: preorderList cs

/-- `preorder` mapped over a forest, left to right. -/
def preorderList : List Node → List Node
  | [] => []
  | n :: ns => preorder n ++ preorderList ns
end

mutual
/-- BeautifulSoup `.text`: the concatenation of all descendant strings. -/
def Node.innerText : Node → String
  | .text s => s
  | .element _ _ cs => innerTextList cs

/-- `Node.innerText` concatenated over a forest. -/
def innerTextList : List Node → String
  | [] => ""
  | n :: ns => n.innerText ++ innerTextList ns
end

/-- The proper descendants of a node, in document order. -/
def Node.descendants : Node → List Node
  | .text _ => []
  | .element _ _ cs => preorderList cs

/-- Whether the node is an element with the given tag name
(`find`/`find_all` with a tag name only ever match elements). -/
def Node.tagIs (t : String) : Node → Bool
  | .element tag _ _ => tag == t
  | .text _ => false

/-- The value of an attribute on an element, if present
(first occurrence wins, as in an attribute dictionary). -/
def Node.attrVal (k : String) : Node → Option String
  | .element _ attrs _ => attrs.lookup k
  | .text _ => none

/-- Whether the node is an element carrying attribute `k` with value `v`. -/
def Node.hasAttrVal (k v : String) (n : Node) : Bool :=
  n.attrVal k == some v

/-- `soup.find(p)`: the first node of the document matching `p`, in
document order, or `none`. -/
def findFirst (p : Node → Bool) (doc : Doc) : Option Node :=
  (preorderList doc).find? p

/-- `tag.find(p)` / attribute access like `tag.tbody`, `tag.div`: the
first proper descendant matching `p`. -/
def Node.findDesc (p : Node → Bool) (n : Node) : Option Node :=
  n.descendants.find? p

/-- `tag.find_all(name)`: all descendants with the given tag name, in
document order. -/
def Node.findAllTag (t : String) (n : Node) : List Node :=
  n.descendants.filter (Node.tagIs t)

/-- Whether the node is a bare text node. -/
def Node.isTextNode : Node → Bool
  | .text _ => true
  | .element _ _ _ => false

/-- `tag.find(text=True, recursive=False)`: the string of the first
direct child that is a text node, or `none` (Python `None`). -/
def Node.directText : Node → Option String
  | .text _ => none
  | .element _ _ cs =>
    (cs.find? Node.isTextNode).map fun n =>
      match n with
      | .text s => s
      | .element _ _ _ => ""

/-- The Python exceptions the script can raise while handling a page. -/
inductive PyErr where
  | indexError
  | attributeError
  | keyError
deriving Repr, DecidableEq

/-- Python list indexing `xs[i]`: raises `IndexError` out of range. -/
def pyIndex (xs : List Node) (i : Nat) : Except PyErr Node :=
  match xs[i]? with
  | some x => .ok x
  | none => .error .indexError

/-- Use of a possibly-`None` value as an object: attribute access on
`None` (e.g. `.text` after a failed `find`) raises `AttributeError`. -/
def pyAttr (x : Option Node) : Except PyErr Node :=
  match x with
  | some n => .ok n
  | none => .error .attributeError

/-- Python item access `tag['value']`: raises `KeyError` when absent. -/
def pyItem (x : Option String) : Except PyErr String :=
  match x with
  | some s => .ok s
  | none => .error .keyError

/-- One ticket availability record, as built row by row in
`ShowDatePage.tickets`.  `price` is `cols[3].find(text=True,
recursive=False)`, which Python stores even when it is `None`, hence the
`Option`; the other fields are always strings. -/
structure Ticket where
  time : String
  area : String
  seats : String
  price : Option String
  showId : String
  date : String
deriving Repr, DecidableEq

/-- The predicate `soup.find("table", attrs={"data-id": "seats-table"})`
filters by: a `table` element whose `data-id` attribute is `seats-table`. -/
def isSeatsTable (n : Node) : Bool :=
  n.tagIs "table" && n.hasAttrVal "data-id" "seats-table"

/-- `ShowDatePage.tickets`, one row: the body of the loop builds the
ticket dictionary, evaluating in order `cols[0].text`, `cols[1].div.text`,
`cols[2].span.text`, `cols[3].find(text=True, recursive=False)`; each
index can raise `IndexError` and each `.div`/`.span` access can leave
`None`, whose `.text` raises `AttributeError`. -/
def parseRow (showId date : String) (row : Node) : Except PyErr Ticket := do
  let cols := row.findAllTag "td"
  let c0 ← pyIndex cols 0
  let time := c0.innerText
  let c1 ← pyIndex cols 1
  let d1 ← pyAttr (c1.findDesc (Node.tagIs "div"))
  let area := d1.innerText
  let c2 ← pyIndex cols 2
  let s2 ← pyAttr (c2.findDesc (Node.tagIs "span"))
  let seats := s2.innerText
  let c3 ← pyIndex cols 3
  let price := c3.directText
  pure { time, area, seats, price, showId, date }

/-- The row loop of `ShowDatePage.tickets`: `tickets = []` then
`tickets.append(ticket)` for each row, any row error propagating. -/
def rowsLoop (showId date : String) : List Node → List Ticket → Except PyErr (List Ticket)
  | [], acc => .ok acc
  | row :: rows, acc =>
    match parseRow showId date row with
    | .error e => .error e
    | .ok t => rowsLoop showId date rows (acc ++ [t])

/-- `ShowDatePage.tickets`: find the seats table; if absent return the
empty list (not an error); otherwise iterate `table.tbody.find_all("tr")`
(where a missing `tbody` leaves `None` and `find_all` on it raises
`AttributeError`) and parse each row.  The fetched markup is the `doc`
argument; `showId` and `date` (already formatted `YYYYMMDD`) are attached
to every record. -/
def tickets (showId date : String) (doc : Doc) : Except PyErr (List Ticket) :=
  match findFirst isSeatsTable doc with
  | none => .ok []
  | some table =>
    match pyAttr (table.findDesc (Node.tagIs "tbody")) with
    | .error e => .error e
    | .ok tbody => rowsLoop showId date (tbody.findAllTag "tr") []

/-- A data row with the structure the parser indexes into: at least four
cells, a `div` inside cell 1 and a `span` inside cell 2. -/
def rowStructured (row : Node) : Bool :=
  match row.findAllTag "td" with
  | _ :: c1 :: c2 :: _ :: _ =>
    (c1.findDesc (Node.tagIs "div")).isSome && (c2.findDesc (Node.tagIs "span")).isSome
  | _ => false

/-- A well-formed data row: structured as above, and cell 3 additionally
carries a direct text child (the bare price string). -/
def rowWellFormed (row : Node) : Bool :=
  match row.findAllTag "td" with
  | _ :: c1 :: c2 :: c3 :: _ =>
    (c1.findDesc (Node.tagIs "div")).isSome && (c2.findDesc (Node.tagIs "span")).isSome
      && (c3.directText).isSome
  | _ => false

/-- The record the parser extracts from a structured row: cell 0's full
text, the text of the `div` in cell 1, the text of the `span` in cell 2,
and cell 3's direct text as price. -/
def rowRecord (showId date : String) (row : Node) : Ticket :=
  match row.findAllTag "td" with
  | c0 :: c1 :: c2 :: c3 :: _ =>
    { time := c0.innerText
      area := (((c1.findDesc (Node.tagIs "div")).getD (.text "")).innerText)
      seats := (((c2.findDesc (Node.tagIs "span")).getD (.text "")).innerText)
      price := c3.directText
      showId, date }
  | _ => { time := "", area := "", seats := "", price := none, showId, date }

/-- The regular expression `validShowIdPattern` is `^\d{4}$`, applied with
`re.match`.  Python's `$` matches at the end of the string or just before
a single newline ending the string, so the pattern accepts four digits or
four digits followed by one final newline.  (The embedding reads `\d` as
an ASCII digit.) -/
def matchValidShowId (s : String) : Bool :=
  match s.toList with
  | [a, b, c, d] => a.isDigit && b.isDigit && c.isDigit && d.isDigit
  | [a, b, c, d, e] => a.isDigit && b.isDigit && c.isDigit && d.isDigit && e == '\n'
  | _ => false

/-- The predicate the specification states for show identifiers: exactly
four ASCII digits.  Stated from the spec's words, for comparison with
`matchValidShowId`, the translation of the code's regex use. -/
def specFourAsciiDigits (s : String) : Bool :=
  s.length == 4 && s.toList.all Char.isDigit

/-- The predicate of `soup.find("select", attrs={"id": "edit-show"})`. -/
def isEditShowSelect (n : Node) : Bool :=
  n.tagIs "select" && n.hasAttrVal "id" "edit-show"

/-- Python dictionary assignment `shows[showName] = showId` on a dict
modelled as an ordered association list: overwrite in place if the key
exists, else append. -/
def dictInsert (m : List (String × String)) (k v : String) : List (String × String) :=
  if m.any (fun p => p.1 == k) then m.map (fun p => if p.1 == k then (k, v) else p)
  else m ++ [(k, v)]

/-- The option loop of `availableShows`: `shows = {}` then for each
`option`, read `option['value']` (a missing attribute raises `KeyError`)
and the option's text; keep the pair only when the value matches
`validShowIdPattern`, discarding mismatches silently. -/
def showsLoop : List Node → List (String × String) → Except PyErr (List (String × String))
  | [], shows => .ok shows
  | opt :: opts, shows =>
    match pyItem (opt.attrVal "value") with
    | .error e => .error e
    | .ok showId =>
      if matchValidShowId showId then showsLoop opts (dictInsert shows opt.innerText showId)
      else showsLoop opts shows

/-- `availableShows`, from the fetched listing markup: find the
`select#edit-show` control (`find_all` on a `None` result raises
`AttributeError`), then run the option loop over its options. -/
def availableShows (doc : Doc) : Except PyErr (List (String × String)) :=
  match pyAttr (findFirst isEditShowSelect doc) with
  | .error e => .error e
  | .ok selectList => showsLoop (selectList.findAllTag "option") []

/-- `daterange(start_date, end_date)`: calendar dates are modelled as
integers counting days, so `(end_date - start_date).days` is `e - s` and
`start_date + timedelta(n)` is `s + n`.  `range` of a non-positive count
is empty, matching `Int.toNat` of a non-positive difference. -/
def daterange (s e : Int) : List Int :=
  (List.range (e - s).toNat).map fun (n : Nat) => s + (n : Int)

/-- The state a `Bot` instance carries after `__init__`. -/
structure Bot where
  showId : String
  ticketQuantity : Nat
  dateFrom : Int
  dateTo : Int
deriving Repr, DecidableEq

/-- `Bot.__init__`: optional arguments are `Option`s (`none` = omitted or
`None`); `ticketQuantity` defaults to `2`, `dateFrom` to `today`, and
`dateTo` to the resolved `self.dateFrom + timedelta(90)`.  (`datetime`
dates are always truthy, so `x if x else d` on an optional date is
exactly `Option.getD`.) -/
def Bot.init (today : Int) (showId : String) (ticketQuantity : Option Nat)
    (dateFrom dateTo : Option Int) : Bot :=
  let f := dateFrom.getD today
  { showId
    ticketQuantity := ticketQuantity.getD 2
    dateFrom := f
    dateTo := dateTo.getD (f + 90) }

/-- The loop of `Bot.tickets`: `tickets.extend(page.tickets())` for each
date, where any exception raised while fetching or parsing a page
propagates and aborts the loop.  `page` abstracts
`ShowDatePage(...).tickets()` for one date: the fetch plus the parse. -/
def ticketsLoop (page : Int → Except ε (List Ticket)) :
    List Int → List Ticket → Except ε (List Ticket)
  | [], acc => .ok acc
  | d :: ds, acc =>
    match page d with
    | .error e => .error e
    | .ok ps => ticketsLoop page ds (acc ++ ps)

/-- `Bot.tickets`: iterate `daterange(self.dateFrom, self.dateTo)`,
accumulating each page's records in order. -/
def Bot.tickets (page : Int → Except ε (List Ticket)) (b : Bot) :
    Except ε (List Ticket) :=
  ticketsLoop page (daterange b.dateFrom b.dateTo) []

/-- The error a failed network fetch raises (a `requests` transport
exception), which nothing in the script catches. -/
inductive NetErr where
  | transportError
deriving Repr, DecidableEq

/-- A record to be exported: an ordered mapping from field name to string
value, as the ticket dictionaries are consumed by `csv.DictWriter`. -/
abbrev Record := List (String × String)

/-- The keys of a record, in insertion order (`for k in d`). -/
def recordKeys (r : Record) : List String := r.map Prod.fst

/-- Lexicographic comparison of character lists by code point: the order
Python's `sorted` uses on strings. -/
def charsLe : List Char → List Char → Bool
  | [], _ => true
  | _ :: _, [] => false
  | c :: cs, d :: ds => if c = d then charsLe cs ds else decide (c < d)

/-- Lexicographic order on strings by code point (Python string order). -/
def strLe (a b : String) : Prop := charsLe a.data b.data = true

instance : DecidableRel strLe :=
  fun a b => inferInstanceAs (Decidable (charsLe a.data b.data = true))

/-- `fieldnames = sorted(list(set(k for d in ticketRows for k in d)))`:
the deduplicated union of all keys, sorted lexicographically. -/
def fieldnames (rows : List Record) : List String :=
  List.insertionSort strLe (rows.flatMap recordKeys).dedup

/-- `csv` escaping of a field body: each embedded double quote is
doubled. -/
def csvEscape (s : String) : String :=
  String.mk (s.data.flatMap fun c => if c == '"' then ['"', '"'] else [c])

/-- `csv` quoting under `QUOTE_ALL`: every field is wrapped in double
quotes, its body escaped. -/
def csvQuote (s : String) : String :=
  "\"" ++ csvEscape s ++ "\""

/-- One CSV cell of a data row: the record's value for the field, or the
empty string when the record lacks the field (`DictWriter`'s default
`restval=''`), quoted. -/
def renderCell (r : Record) (f : String) : String :=
  csvQuote ((r.lookup f).getD "")

/-- One CSV data row: the cells for all field names, comma-separated. -/
def renderRow (fns : List String) (r : Record) : String :=
  String.intercalate "," (fns.map (renderCell r))

/-- The export step of `search`: infer `fieldnames`, write the header
(each field name itself quoted under `QUOTE_ALL`), then one row per
record.  The result is the list of lines written to the file. -/
def writeCsv (rows : List Record) : List String :=
  let fns := fieldnames rows
  String.intercalate "," (fns.map csvQuote) :: rows.map (renderRow fns)

/-! Concrete markup used to exercise the definitions on closed inputs. -/

/-- A well-formed data row: four cells, a `div` in cell 1, a `span` in
cell 2, a bare text price in cell 3. -/
def demoRow1 : Node :=
  .element "tr" []
    [.element "td" [] [.text "19:30"],
     .element "td" [] [.element "div" [] [.text "Stalls"]],
     .element "td" [] [.element "span" [] [.text "A12"]],
     .element "td" [] [.text "£45"]]

/-- A second well-formed row, whose price cell also holds a nested
element after the bare price text. -/
def demoRow2 : Node :=
  .element "tr" []
    [.element "td" [] [.text "20:00"],
     .element "td" [] [.element "div" [] [.text "Circle"]],
     .element "td" [] [.element "span" [] [.text "B7"]],
     .element "td" [] [.text "£30", .element "a" [] [.text "book"]]]

/-- A malformed data row: only two cells. -/
def demoShortRow : Node :=
  .element "tr" []
    [.element "td" [] [.text "19:30"],
     .element "td" [] [.element "div" [] [.text "Stalls"]]]

/-- The body of a well-formed seats table. -/
def demoTbody : Node := .element "tbody" [] [demoRow1, demoRow2]

/-- A well-formed seats table. -/
def demoTable : Node := .element "table" [("data-id", "seats-table")] [demoTbody]

/-- A page whose seats table has two well-formed rows. -/
def demoSeatsDoc : Doc :=
  [.element "html" [] [.element "body" [] [demoTable]]]

/-- The body of a seats table whose second row is malformed. -/
def demoBadTbody : Node := .element "tbody" [] [demoRow1, demoShortRow]

/-- A page whose seats table contains a malformed (two-cell) row. -/
def demoBadDoc : Doc :=
  [.element "html" []
    [.element "body" [] [.element "table" [("data-id", "seats-table")] [demoBadTbody]]]]

/-- A page with neither a seats table nor a show-listing control. -/
def demoPlainDoc : Doc :=
  [.element "html" [] [.element "body" [] [.element "p" [] [.text "no data here"]]]]

/-- An `option` element of the show-listing control. -/
def demoOption (v label : String) : Node :=
  .element "option" [("value", v)] [.text label]

/-- The `select#edit-show` control of the listing page: one malformed
value, one well-formed value, and one value that is four digits followed
by a trailing newline. -/
def demoSelect : Node :=
  .element "select" [("id", "edit-show")]
    [demoOption "61a8" "Alpha", demoOption "6168" "Beta", demoOption "6168\n" "Gamma"]

/-- A listing page containing `demoSelect`. -/
def demoListingDoc : Doc := [.element "html" [] [demoSelect]]

/-- A page stub for the orchestrator: dates before `2` succeed with no
tickets, any later date fails with a transport error. -/
def demoFailPage : Int → Except NetErr (List Ticket) :=
  fun d => if d < 2 then .ok [] else .error .transportError

/-- A bot over the window `[0, 3)`. -/
def demoBot : Bot := Bot.init 0 "6168" none (some 0) (some 3)

/-- The record pair of the specification's exporter example. -/
def demoRecords : List Record :=
  [[("a", "1"), ("b", "2")], [("b", "3"), ("c", "4")]]

/-! ## Theorems -/

/-- C2: for every pair of dates, if `end <= start` then `daterange`
produces the empty sequence; if `end > start` it produces exactly
`end - start` dates, the `i`-th being `start + i`; and every produced
date lies in `[start, end)`. -/
theorem claim_C2_daterange (s e : Int) :
    (e ≤ s → daterange s e = []) ∧
    (s < e → ((daterange s e).length : Int) = e - s ∧
      ∀ (i : Nat) (hi : i < (daterange s e).length),
        (daterange s e).get ⟨i, hi⟩ = s + i) ∧
    (∀ d ∈ daterange s e, s ≤ d ∧ d < e) := by
  have hlen : (daterange s e).length = (e - s).toNat := by
    unfold daterange
    rw [List.length_map, List.length_range]
  refine ⟨fun h => ?_, fun _ => ⟨?_, ?_⟩, fun d hd => ?_⟩
  · simp [daterange, Int.toNat_of_nonpos (by omega : e - s ≤ 0)]
  · rw [hlen]; omega
  · intro i hi
    rw [List.get_eq_getElem]
    unfold daterange
    rw [List.getElem_map, List.getElem_range]
  · unfold daterange at hd
    rw [List.mem_map] at hd
    obtain ⟨n, hn, rfl⟩ := hd
    rw [List.mem_range] at hn
    omega

/-- Instantiation of `claim_C2_daterange` on the windows `[5, 3)` and
`[2, 5)`. -/
theorem claim_C2_daterange_witness :
    daterange 5 3 = [] ∧ ((daterange 2 5).length : Int) = 5 - 2 :=
  ⟨(claim_C2_daterange 5 3).1 (by decide),
   ((claim_C2_daterange 2 5).2.1 (by decide)).1⟩

/-- C3: on markup containing no table with `data-id` `seats-table`, the
parser returns the empty record list and raises no error. -/
theorem claim_C3_missing_table (showId date : String) (doc : Doc)
    (h : ∀ n ∈ preorderList doc, isSeatsTable n = false) :
    tickets showId date doc = .ok [] := by
  have hf : findFirst isSeatsTable doc = none := by
    unfold findFirst
    exact List.find?_eq_none.mpr fun x hx => by simp [h x hx]
  simp [tickets, hf]

/-- Instantiation of `claim_C3_missing_table` on a concrete page with no
seats table. -/
theorem claim_C3_missing_table_witness :
    tickets "6168" "20170629" demoPlainDoc = .ok [] :=
  claim_C3_missing_table "6168" "20170629" demoPlainDoc (by decide)

/-- C7: a bot constructed without optional arguments gets ticket
quantity 2, start date today, end date today + 90; with a custom start
and no end, the end is that start + 90. -/
theorem claim_C7_bot_defaults (today : Int) (showId : String) :
    Bot.init today showId none none none =
      { showId, ticketQuantity := 2, dateFrom := today, dateTo := today + 90 } ∧
    ∀ f : Int, Bot.init today showId none (some f) none =
      { showId, ticketQuantity := 2, dateFrom := f, dateTo := f + 90 } :=
  ⟨rfl, fun _ => rfl⟩

/-- C10: on a listing page with no `select#edit-show` control,
`availableShows` raises an `AttributeError` rather than returning an
empty mapping, while the page parser on the same markup returns an empty
result. -/
theorem claim_C10_catalog_missing_select :
    availableShows demoPlainDoc = .error .attributeError ∧
    tickets "6168" "20170629" demoPlainDoc = .ok [] :=
  ⟨rfl, rfl⟩

/-- A row whose cell list starts with four cells, with a `div` in cell 1
and a `span` in cell 2, parses to exactly the positional extraction. -/
theorem parseRow_ok (showId date : String) (row : Node) (c0 c1 c2 c3 : Node) (rest : List Node)
    (htds : row.findAllTag "td" = c0 :: c1 :: c2 :: c3 :: rest)
    (d1 : Node) (hd1 : c1.findDesc (Node.tagIs "div") = some d1)
    (s2 : Node) (hs2 : c2.findDesc (Node.tagIs "span") = some s2) :
    parseRow showId date row =
      .ok { time := c0.innerText, area := d1.innerText, seats := s2.innerText,
            price := c3.directText, showId, date } := by
  unfold parseRow
  rw [htds]
  simp [bind, Except.bind, pure, Except.pure, pyIndex, pyAttr, hd1, hs2]

/-- Unpacking of `rowStructured`. -/
theorem rowStructured_elim (row : Node) (h : rowStructured row = true) :
    ∃ c0 c1 c2 c3 rest d1 s2, row.findAllTag "td" = c0 :: c1 :: c2 :: c3 :: rest ∧
      c1.findDesc (Node.tagIs "div") = some d1 ∧
      c2.findDesc (Node.tagIs "span") = some s2 := by
  unfold rowStructured at h
  split at h
  · rename_i c0 c1 c2 c3 rest heq
    rw [Bool.and_eq_true] at h
    obtain ⟨d1, hd1⟩ := Option.isSome_iff_exists.mp h.1
    obtain ⟨s2, hs2⟩ := Option.isSome_iff_exists.mp h.2
    exact ⟨c0, c1, c2, c3, rest, d1, s2, heq, hd1, hs2⟩
  · exact absurd h (by simp)

/-- `rowRecord` agrees with the positional extraction on structured rows. -/
theorem rowRecord_eq (showId date : String) (row : Node) (c0 c1 c2 c3 : Node) (rest : List Node)
    (htds : row.findAllTag "td" = c0 :: c1 :: c2 :: c3 :: rest)
    (d1 : Node) (hd1 : c1.findDesc (Node.tagIs "div") = some d1)
    (s2 : Node) (hs2 : c2.findDesc (Node.tagIs "span") = some s2) :
    rowRecord showId date row =
      { time := c0.innerText, area := d1.innerText, seats := s2.innerText,
        price := c3.directText, showId, date } := by
  unfold rowRecord
  rw [htds]
  simp [hd1, hs2]

/-- Unpacking of `rowWellFormed`. -/
theorem rowWellFormed_elim (row : Node) (h : rowWellFormed row = true) :
    ∃ c0 c1 c2 c3 rest d1 s2, row.findAllTag "td" = c0 :: c1 :: c2 :: c3 :: rest ∧
      c1.findDesc (Node.tagIs "div") = some d1 ∧
      c2.findDesc (Node.tagIs "span") = some s2 ∧
      (c3.directText).isSome = true := by
  unfold rowWellFormed at h
  split at h
  · rename_i c0 c1 c2 c3 rest heq
    rw [Bool.and_eq_true, Bool.and_eq_true] at h
    obtain ⟨d1, hd1⟩ := Option.isSome_iff_exists.mp h.1.1
    obtain ⟨s2, hs2⟩ := Option.isSome_iff_exists.mp h.1.2
    exact ⟨c0, c1, c2, c3, rest, d1, s2, heq, hd1, hs2, h.2⟩
  · exact absurd h (by simp)

/-- Every well-formed row is structured. -/
theorem rowWellFormed_structured (row : Node) (h : rowWellFormed row = true) :
    rowStructured row = true := by
  obtain ⟨c0, c1, c2, c3, rest, d1, s2, heq, hd1, hs2, _⟩ := rowWellFormed_elim row h
  unfold rowStructured
  rw [heq]
  simp [hd1, hs2]

/-- The row loop on structured rows succeeds and appends one record per
row, in order. -/
theorem rowsLoop_ok (showId date : String) (rows : List Node) (acc : List Ticket)
    (h : ∀ row ∈ rows, rowStructured row = true) :
    rowsLoop showId date rows acc = .ok (acc ++ rows.map (rowRecord showId date)) := by
  induction rows generalizing acc with
  | nil => simp [rowsLoop]
  | cons r rs ih =>
    obtain ⟨c0, c1, c2, c3, rest, d1, s2, heq, hd1, hs2⟩ :=
      rowStructured_elim r (h r (List.mem_cons_self r rs))
    unfold rowsLoop
    rw [parseRow_ok showId date r c0 c1 c2 c3 rest heq d1 hd1 s2 hs2,
      ← rowRecord_eq showId date r c0 c1 c2 c3 rest heq d1 hd1 s2 hs2]
    show rowsLoop showId date rs (acc ++ [rowRecord showId date r]) = _
    rw [ih _ (fun row hr => h row (List.mem_cons_of_mem r hr))]
    simp

/-- `tickets` on a page whose seats table is present, has a `tbody`, and
whose rows are all structured, returns one record per row. -/
theorem tickets_ok (showId date : String) (doc : Doc) (table tbody : Node)
    (hfind : findFirst isSeatsTable doc = some table)
    (htbody : table.findDesc (Node.tagIs "tbody") = some tbody)
    (h : ∀ row ∈ tbody.findAllTag "tr", rowStructured row = true) :
    tickets showId date doc = .ok ((tbody.findAllTag "tr").map (rowRecord showId date)) := by
  unfold tickets
  rw [hfind]
  simp only [htbody, pyAttr]
  rw [rowsLoop_ok showId date _ [] h]
  simp

/-- C1: on markup whose seats table is present with well-formed rows, the
parser returns exactly one record per row — each the positional
extraction carrying time, area, seats and price — in the order the rows
appear. -/
theorem claim_C1_parser_rows (showId date : String) (doc : Doc) (table tbody : Node)
    (hfind : findFirst isSeatsTable doc = some table)
    (htbody : table.findDesc (Node.tagIs "tbody") = some tbody)
    (hwf : ∀ row ∈ tbody.findAllTag "tr", rowWellFormed row = true) :
    tickets showId date doc = .ok ((tbody.findAllTag "tr").map (rowRecord showId date)) ∧
    ∀ ts, tickets showId date doc = .ok ts →
      ts.length = (tbody.findAllTag "tr").length ∧
      ∀ (i : Nat) (hi : i < ts.length) (hi' : i < (tbody.findAllTag "tr").length),
        ts.get ⟨i, hi⟩ = rowRecord showId date ((tbody.findAllTag "tr").get ⟨i, hi'⟩) := by
  have hok := tickets_ok showId date doc table tbody hfind htbody
    (fun row hr => rowWellFormed_structured row (hwf row hr))
  refine ⟨hok, fun ts hts => ?_⟩
  rw [hok] at hts
  injection hts with hts
  subst hts
  refine ⟨by simp, fun i hi hi' => ?_⟩
  simp [List.get_eq_getElem]

/-- Instantiation of `claim_C1_parser_rows` on a concrete page with two
well-formed rows. -/
theorem claim_C1_parser_rows_witness :
    tickets "6168" "20170629" demoSeatsDoc =
      .ok ((demoTbody.findAllTag "tr").map (rowRecord "6168" "20170629")) :=
  (claim_C1_parser_rows "6168" "20170629" demoSeatsDoc demoTable demoTbody rfl rfl
    (by decide)).1

/-- C4: when every data row has at least four cells with the expected
nesting the parser's error branch is unreachable, while on a concrete
page containing a two-cell row the parser raises an out-of-range
(`IndexError`) failure rather than skipping the row. -/
theorem claim_C4_malformed_row :
    (∀ (showId date : String) (doc : Doc) (table tbody : Node),
        findFirst isSeatsTable doc = some table →
        table.findDesc (Node.tagIs "tbody") = some tbody →
        (∀ row ∈ tbody.findAllTag "tr", rowStructured row = true) →
        ∃ ts, tickets showId date doc = .ok ts) ∧
    (demoShortRow.findAllTag "td").length < 4 ∧
    tickets "6168" "20170629" demoBadDoc = .error .indexError :=
  ⟨fun s d doc t tb hf htb h => ⟨_, tickets_ok s d doc t tb hf htb h⟩, by decide, rfl⟩

/-- Instantiation of `claim_C4_malformed_row` on a concrete page with
structured rows. -/
theorem claim_C4_malformed_row_witness :
    ∃ ts, tickets "6168" "20170629" demoSeatsDoc = .ok ts :=
  claim_C4_malformed_row.1 "6168" "20170629" demoSeatsDoc demoTable demoTbody rfl rfl
    (by decide)

/-- C9: every record parsed from a well-formed row binds strings to all
its fields — in particular its price is never `None` — and carries the
caller's show identifier and date. -/
theorem claim_C9_record_fields (showId date : String) (row : Node)
    (h : rowWellFormed row = true) :
    ∃ t, parseRow showId date row = .ok t ∧ t.price.isSome = true ∧
      t.showId = showId ∧ t.date = date := by
  obtain ⟨c0, c1, c2, c3, rest, d1, s2, heq, hd1, hs2, hpr⟩ := rowWellFormed_elim row h
  exact ⟨_, parseRow_ok showId date row c0 c1 c2 c3 rest heq d1 hd1 s2 hs2, hpr, rfl, rfl⟩

/-- Instantiation of `claim_C9_record_fields` on a concrete well-formed
row. -/
theorem claim_C9_record_fields_witness :
    ∃ t, parseRow "6168" "20170629" demoRow1 = .ok t ∧ t.price.isSome = true ∧
      t.showId = "6168" ∧ t.date = "20170629" :=
  claim_C9_record_fields "6168" "20170629" demoRow1 (by decide)

/-- A failing date inside the iterated window makes the whole loop
return that failure, whatever the dates before and after it do. -/
theorem ticketsLoop_error {ε : Type} (page : Int → Except ε (List Ticket)) (e : ε) (d : Int)
    (pre post : List Int) (hpre : ∀ x ∈ pre, (page x).isOk = true) (hd : page d = .error e) :
    ∀ acc, ticketsLoop page (pre ++ d :: post) acc = .error e := by
  induction pre with
  | nil => intro acc; simp [ticketsLoop, hd]
  | cons x xs ih =>
    intro acc
    have hx := hpre x (List.mem_cons_self x xs)
    obtain ⟨l, hl⟩ : ∃ l, page x = .ok l := by
      cases hpx : page x with
      | error err => rw [hpx] at hx; simp [Except.isOk, Except.toBool] at hx
      | ok l => exact ⟨l, rfl⟩
    rw [List.cons_append]
    unfold ticketsLoop
    rw [hl]
    exact ih (fun y hy => hpre y (List.mem_cons_of_mem x hy)) _

/-- C8: if fetching some date of the window raises a transport error,
`Bot.tickets` propagates that error — no completed record list is
produced — no matter how many earlier dates succeeded. -/
theorem claim_C8_transport_abort (b : Bot) (page : Int → Except NetErr (List Ticket))
    (pre post : List Int) (d : Int) (e : NetErr)
    (hsplit : daterange b.dateFrom b.dateTo = pre ++ d :: post)
    (hpre : ∀ x ∈ pre, (page x).isOk = true)
    (hd : page d = .error e) :
    b.tickets page = .error e := by
  unfold Bot.tickets
  rw [hsplit]
  exact ticketsLoop_error page e d pre post hpre hd []

/-- Instantiation of `claim_C8_transport_abort`: two successful dates
followed by a failing one. -/
theorem claim_C8_transport_abort_witness :
    demoBot.tickets demoFailPage = .error .transportError :=
  claim_C8_transport_abort demoBot demoFailPage [0, 1] [] 2 .transportError rfl (by decide) rfl

/-- `charsLe` is total. -/
theorem charsLe_total : ∀ (x y : List Char), charsLe x y = true ∨ charsLe y x = true := by
  intro x
  induction x with
  | nil => intro y; left; rfl
  | cons c cs ih =>
    intro y
    cases y with
    | nil => right; rfl
    | cons d ds =>
      by_cases hcd : c = d
      · subst hcd
        rcases ih ds with h | h
        · left; simp [charsLe, h]
        · right; simp [charsLe, h]
      · rcases lt_trichotomy c d with hlt | heq | hgt
        · left; simp [charsLe, hcd, hlt]
        · exact absurd heq hcd
        · right; simp [charsLe, Ne.symm hcd, hgt]

/-- `charsLe` is transitive. -/
theorem charsLe_trans : ∀ (x y z : List Char), charsLe x y = true → charsLe y z = true →
    charsLe x z = true := by
  intro x
  induction x with
  | nil => intros; rfl
  | cons a as ih =>
    intro y z hxy hyz
    cases y with
    | nil => simp [charsLe] at hxy
    | cons b bs =>
      cases z with
      | nil => simp [charsLe] at hyz
      | cons c cs =>
        simp only [charsLe] at hxy hyz ⊢
        by_cases hab : a = b
        · subst hab
          by_cases hbc : a = c
          · subst hbc
            simp only [if_pos rfl] at hxy hyz ⊢
            exact ih bs cs hxy hyz
          · simp only [if_pos rfl] at hxy
            simp [hbc] at hyz ⊢
            exact hyz
        · simp only [if_neg hab, decide_eq_true_eq] at hxy
          by_cases hbc : b = c
          · subst hbc
            simp [hab, hxy]
          · simp only [if_neg hbc, decide_eq_true_eq] at hyz
            have hac : a < c := lt_trans hxy hyz
            simp [ne_of_lt hac, hac]

/-- C5: the exporter's header names exactly the lexicographically sorted,
deduplicated union of the keys of all records; every cell is
double-quoted; a field absent from a record renders as an empty quoted
value; and on the records `a:1,b:2` and `b:3,c:4` the output is exactly
the expected three quoted lines. -/
theorem claim_C5_export (rows : List Record) :
    (∀ k, k ∈ fieldnames rows ↔ ∃ r ∈ rows, k ∈ recordKeys r) ∧
    (fieldnames rows).Sorted strLe ∧
    (fieldnames rows).Nodup ∧
    (∀ (r : Record) (f : String), r.lookup f = none → renderCell r f = "\"\"") ∧
    (∀ (r : Record) (f : String), ∃ body, renderCell r f = "\"" ++ body ++ "\"") ∧
    writeCsv demoRecords = ["\"a\",\"b\",\"c\"", "\"1\",\"2\",\"\"", "\"\",\"3\",\"4\""] := by
  have hperm : (fieldnames rows).Perm (rows.flatMap recordKeys).dedup :=
    List.perm_insertionSort strLe _
  refine ⟨?_, ?_, ?_, ?_, ?_, rfl⟩
  · intro k
    rw [hperm.mem_iff, List.mem_dedup, List.mem_flatMap]
  · exact @List.sorted_insertionSort String strLe _ ⟨fun a b => charsLe_total a.data b.data⟩
      ⟨fun a b c => charsLe_trans a.data b.data c.data⟩ _
  · exact hperm.nodup_iff.mpr (List.nodup_dedup _)
  · intro r f h
    unfold renderCell
    rw [h]
    rfl
  · intro r f
    exact ⟨csvEscape ((r.lookup f).getD ""), rfl⟩

/-- Instantiation of `claim_C5_export` on the specification's example
records. -/
theorem claim_C5_export_witness :
    writeCsv demoRecords = ["\"a\",\"b\",\"c\"", "\"1\",\"2\",\"\"", "\"\",\"3\",\"4\""] :=
  (claim_C5_export demoRecords).2.2.2.2.2

/-- Inserting a key not yet present appends the pair. -/
theorem dictInsert_notMem (m : List (String × String)) (k v : String)
    (h : ∀ p ∈ m, p.1 ≠ k) : dictInsert m k v = m ++ [(k, v)] := by
  have hany : m.any (fun p => p.1 == k) = false := by
    rw [List.any_eq_false]
    intro p hp
    simpa using h p hp
  unfold dictInsert
  rw [hany]
  simp

/-- The option loop, when every option carries a value and the option
labels are distinct, succeeds and appends exactly the pattern-matching
options as (label, value) pairs. -/
theorem showsLoop_ok (opts : List Node) (acc : List (String × String))
    (hvals : ∀ o ∈ opts, (o.attrVal "value").isSome = true)
    (hnames : (opts.map Node.innerText).Nodup)
    (hdisj : ∀ o ∈ opts, ∀ p ∈ acc, p.1 ≠ o.innerText) :
    showsLoop opts acc = .ok (acc ++
      (opts.filter (fun o => matchValidShowId ((o.attrVal "value").getD ""))).map
        (fun o => (o.innerText, (o.attrVal "value").getD ""))) := by
  induction opts generalizing acc with
  | nil => simp [showsLoop]
  | cons o os ih =>
    obtain ⟨v, hv⟩ := Option.isSome_iff_exists.mp (hvals o (List.mem_cons_self o os))
    rw [List.map_cons, List.nodup_cons] at hnames
    unfold showsLoop
    rw [hv]
    simp only [pyItem]
    by_cases hm : matchValidShowId v
    · rw [if_pos hm]
      rw [dictInsert_notMem acc o.innerText v
        (fun p hp => hdisj o (List.mem_cons_self o os) p hp)]
      rw [ih (acc ++ [(o.innerText, v)])
        (fun o' ho' => hvals o' (List.mem_cons_of_mem o ho'))
        hnames.2
        ?_]
      · simp [hv, hm, List.filter_cons]
      · intro o' ho' p hp
        rcases List.mem_append.mp hp with hpacc | hpnew
        · exact hdisj o' (List.mem_cons_of_mem o ho') p hpacc
        · rw [List.mem_singleton] at hpnew
          subst hpnew
          intro hcontra
          replace hcontra : o.innerText = o'.innerText := hcontra
          exact hnames.1 (by rw [hcontra]; exact List.mem_map_of_mem Node.innerText ho')
    · rw [if_neg hm]
      rw [ih acc (fun o' ho' => hvals o' (List.mem_cons_of_mem o ho')) hnames.2
        (fun o' ho' p hp => hdisj o' (List.mem_cons_of_mem o ho') p hp)]
      simp [hv, hm, List.filter_cons]

/-- C6 (amended): when the listing control is present, every option
carries a value attribute, and option labels are distinct, the catalog
includes a (label, value) pair exactly when the value matches the code's
pattern — four digits, optionally followed by one trailing newline — and
non-matching options are discarded silently (the result is still
`Except.ok`). -/
theorem claim_C6_catalog_filter (doc : Doc) (sel : Node)
    (hsel : findFirst isEditShowSelect doc = some sel)
    (hvals : ∀ o ∈ sel.findAllTag "option", (o.attrVal "value").isSome = true)
    (hnames : ((sel.findAllTag "option").map Node.innerText).Nodup) :
    availableShows doc = .ok
      (((sel.findAllTag "option").filter
          (fun o => matchValidShowId ((o.attrVal "value").getD ""))).map
        (fun o => (o.innerText, (o.attrVal "value").getD ""))) ∧
    ∀ m, availableShows doc = .ok m →
      ∀ name id, (name, id) ∈ m ↔
        ∃ o ∈ sel.findAllTag "option", o.innerText = name ∧
          (o.attrVal "value").getD "" = id ∧ matchValidShowId id = true := by
  have hok : availableShows doc = .ok
      (((sel.findAllTag "option").filter
          (fun o => matchValidShowId ((o.attrVal "value").getD ""))).map
        (fun o => (o.innerText, (o.attrVal "value").getD ""))) := by
    unfold availableShows
    rw [hsel]
    simp only [pyAttr]
    rw [showsLoop_ok _ [] hvals hnames (by simp)]
    simp
  refine ⟨hok, fun m hm => ?_⟩
  rw [hok] at hm
  injection hm with hm
  subst hm
  intro name id
  simp only [List.mem_map, List.mem_filter]
  constructor
  · rintro ⟨o, ⟨ho, hmo⟩, heq⟩
    injection heq with h1 h2
    exact ⟨o, ho, h1, h2, by rw [h2] at hmo; exact hmo⟩
  · rintro ⟨o, ho, h1, h2, hmo⟩
    exact ⟨o, ⟨ho, by rw [h2]; exact hmo⟩, by rw [h1, h2]⟩

/-- Instantiation of `claim_C6_catalog_filter` on a concrete listing
page. -/
theorem claim_C6_catalog_filter_witness :
    availableShows demoListingDoc = .ok
      (((demoSelect.findAllTag "option").filter
          (fun o => matchValidShowId ((o.attrVal "value").getD ""))).map
        (fun o => (o.innerText, (o.attrVal "value").getD ""))) :=
  (claim_C6_catalog_filter demoListingDoc demoSelect rfl (by decide) (by decide)).1

/-- C6 counterexample: on a concrete listing page, the option with value
`"6168\n"` — four digits plus a trailing newline, hence not exactly four
ASCII digits — is nevertheless included in the catalog, because Python's
`re.match` with the pattern's `$` accepts a single trailing newline.
`"61a8"` is excluded and `"6168"` included, as the claim says. -/
theorem claim_C6_counterexample :
    availableShows demoListingDoc = .ok [("Beta", "6168"), ("Gamma", "6168\n")] ∧
    specFourAsciiDigits "6168\n" = false ∧
    matchValidShowId "6168\n" = true ∧
    specFourAsciiDigits "61a8" = false ∧
    specFourAsciiDigits "6168" = true :=
  ⟨rfl, rfl, rfl, rfl, rfl⟩

end TLTBot
